import Mathlib

/-!
Verification of the ftp2http upload gateway (src/ftp2http/ftp2http.py).

Python strings (byte strings) are modelled as `List Char`; each definition
below mirrors one Python function or method of the source file.
-/

/-- Python byte strings are modelled as lists of characters. -/
abbrev Str := List Char

/-- Conversion from a Lean string literal to the `Str` model. -/
def pystr (s : String) : Str := s.toList

/-- Python `s.startswith(pre)`, also used for the slice comparison
`path[0:len(root)] == root` (both compute whether `pre` is an initial
segment of `s`). -/
def startswith : Str → Str → Bool
  | [], _ => true
  | _ :: _, [] => false
  | a :: as, b :: bs => a == b && startswith as bs

/-- Python `sub in s` (substring containment). -/
def containsSub (sub : Str) : Str → Bool
  | [] => startswith sub []
  | s@(_ :: rest) => startswith sub s || containsSub sub rest

/-- Python `s.split('/')` (split on every separator, keeping empty parts). -/
def splitSlash : Str → List Str
  | [] => [[]]
  | c :: cs =>
      if c = '/' then [] :: splitSlash cs
      else
        match splitSlash cs with
        | s :: ss => (c :: s) :: ss
        | [] => [[c]]

/-- Python `'/'.join(comps)`. -/
def joinSlash : List Str → Str
  | [] => []
  | [c] => c
  | c :: cs => c ++ '/' :: joinSlash cs

/-- The `initial_slashes` computation of `posixpath.normpath`: 0 for a
relative path, 2 for a path starting with exactly two slashes, 1 otherwise. -/
def initialSlashes (p : Str) : Nat :=
  if startswith (pystr "/") p then
    if startswith (pystr "//") p && !(startswith (pystr "///") p) then 2 else 1
  else 0

/-- One iteration of the component loop of `posixpath.normpath`: skip empty
and `.` components, append ordinary components (and `..` when it cannot be
resolved), otherwise pop the previous component. -/
def normStep (k : Nat) (acc : List Str) (comp : Str) : List Str :=
  if comp = [] ∨ comp = pystr "." then acc
  else if comp ≠ pystr ".." ∨ (k = 0 ∧ acc = []) ∨ (acc ≠ [] ∧ acc.getLast? = some (pystr "..")) then
    acc ++ [comp]
  else if acc ≠ [] then acc.dropLast
  else acc

/-- `posixpath.normpath` (Python 2), used by `PostFS.validpath` through
`os.path.normpath` on a POSIX host. -/
def normpath (p : Str) : Str :=
  if p = [] then pystr "."
  else
    let k := initialSlashes p
    let comps := splitSlash p
    let newComps := comps.foldl (normStep k) []
    let joined := List.replicate k '/' ++ joinSlash newComps
    if joined = [] then pystr "." else joined

/-- Append a trailing separator unless one is already present (the
`if not x.endswith(os.sep): x = x + os.sep` step of `validpath`). -/
def addSep (s : Str) : Str := if s.getLast? = some '/' then s else s ++ pystr "/"

namespace PostFS

/-- `PostFS.validpath`: normalize the root and the candidate, add trailing
separators, and test whether the root is an initial segment of the path. -/
def validpath (root path : Str) : Bool :=
  let root := normpath root
  let path := normpath path
  let root := addSep root
  let path := addSep path
  startswith root path

end PostFS

/-- Containment under the account's namespace, as the specification words it:
after normalization the candidate either equals the root or extends it past a
separator (this is the string-wise reading of "is contained under the
normalized root"). -/
def containedUnder (root path : Str) : Prop :=
  normpath path = normpath root ∨
    ∃ rest, rest ≠ [] ∧ normpath path = addSep (normpath root) ++ rest

/-- `pyftpdlib.filesystems.FilesystemError`, carrying its message. -/
structure FilesystemError where
  msg : Str
deriving DecidableEq

namespace PostFS

/-- `PostFS.mkstemp`. -/
def mkstemp (suffix pfx dir mode : Str) : Except FilesystemError (Str × Str) :=
  .error ⟨pystr "mkstemp: filesystem operations are disabled."⟩

/-- `PostFS.mkdir`. -/
def mkdir (path : Str) : Except FilesystemError Unit :=
  .error ⟨pystr "mkdir: filesystem operations are disabled."⟩

/-- `PostFS.rmdir`. -/
def rmdir (path : Str) : Except FilesystemError Unit :=
  .error ⟨pystr "rmdir: filesystem operations are disabled."⟩

/-- `PostFS.remove`. -/
def remove (path : Str) : Except FilesystemError Unit :=
  .error ⟨pystr "remove: filesystem operations are disabled."⟩

/-- `PostFS.rename`. -/
def rename (src dst : Str) : Except FilesystemError Unit :=
  .error ⟨pystr "rename: filesystem operations are disabled."⟩

/-- `PostFS.chmod`. -/
def chmod (path mode : Str) : Except FilesystemError Unit :=
  .error ⟨pystr "chmod: filesystem operations are disabled."⟩

/-- `PostFS.stat`. -/
def stat (path : Str) : Except FilesystemError Unit :=
  .error ⟨pystr "stat: filesystem operations are disabled."⟩

/-- `PostFS.lstat`. -/
def lstat (path : Str) : Except FilesystemError Unit :=
  .error ⟨pystr "lstat: filesystem operations are disabled."⟩

/-- `PostFS.readlink`. -/
def readlink (path : Str) : Except FilesystemError Str :=
  .error ⟨pystr "readlink: filesystem operations are disabled."⟩

/-- `PostFS.getsize`. -/
def getsize (path : Str) : Except FilesystemError Nat :=
  .error ⟨pystr "getsize: filesystem operations are disabled."⟩

/-- `PostFS.getmtime`. -/
def getmtime (path : Str) : Except FilesystemError Nat :=
  .error ⟨pystr "getmtime: filesystem operations are disabled."⟩

end PostFS

/-- Python exceptions that can cross the boundaries modelled here:
`ValueError` (write on a closed file), the source's `UnexpectedHTTPResponse`,
and a connection-level `socket.error` raised by the HTTP client primitive. -/
inductive PyExc
  | valueError (msg : Str)
  | unexpectedHTTPResponse (msg : Str)
  | socketError
deriving DecidableEq

/-- `tempfile.SpooledTemporaryFile`, observed through its buffered contents
and its closed flag (writes are sequential, so the file position after the
writes equals the buffer length, which is what `tell()` returns). -/
structure SpooledTemporaryFile where
  data : Str
  closed : Bool
deriving DecidableEq

/-- Python `s.rfind('/')`-based split point: returns `(p[:i], p[i:])` where
`i` is one past the last slash (`(p, [])`-free version of `posixpath.split`
before the head is stripped). -/
def splitAtLastSlash : Str → Str × Str
  | [] => ([], [])
  | c :: cs =>
      if '/' ∈ cs then
        let (h, t) := splitAtLastSlash cs
        (c :: h, t)
      else if c = '/' then ([c], cs)
      else ([], c :: cs)

/-- Python `s.rstrip('/')`. -/
def rstripSlash (s : Str) : Str :=
  ((s.reverse).dropWhile (fun c => c = '/')).reverse

/-- `posixpath.split`: split at the last slash and strip trailing slashes
from the head unless the head is all slashes. -/
def os_path_split (p : Str) : Str × Str :=
  let (head, tail) := splitAtLastSlash p
  if head ≠ [] ∧ head ≠ List.replicate head.length '/' then (rstripSlash head, tail)
  else (head, tail)

/-- `posixpath.basename`: everything after the last slash. -/
def os_path_basename (p : Str) : Str := (splitAtLastSlash p).2

/-- The class attribute `MultipartPostFile.BOUNDARY`. -/
def BOUNDARY : Str := pystr "----------ThIs_Is_tHe_bouNdaRY_$"

/-- The class attribute `MultipartPostFile.CRLF`. -/
def CRLF : Str := pystr "\r\n"

/-- `MultipartPostFile` state: the identity captured by `__init__`, the
`closed` flag, and the lazily created `request_body` spooled file (`none`
models the attribute not existing yet, as tested by `hasattr`). -/
structure MultipartPostFile where
  username : Str
  name : Str
  closed : Bool
  request_body : Option SpooledTemporaryFile
deriving DecidableEq

/-- `MultipartPostFile.__init__(name)`: split off the filename
(`directory, filename = os.path.split(name)`), and take the last component
of the directory as the username. -/
def MultipartPostFile.init (nm : Str) : MultipartPostFile :=
  { username := os_path_basename (os_path_split nm).1
    name := (os_path_split nm).2
    closed := false
    request_body := none }

/-- The multipart preamble written by the first `write` call: opening
boundary, `Content-Disposition` naming the account and the filename,
`Content-Type`, blank line. -/
def preambleFor (username name : Str) : Str :=
  pystr "--" ++ BOUNDARY ++ CRLF
    ++ pystr "Content-Disposition: form-data; name=\"" ++ username
      ++ pystr "\"; filename=\"" ++ name ++ pystr "\"" ++ CRLF
    ++ pystr "Content-Type: application/octet-stream" ++ CRLF
    ++ CRLF

/-- `MultipartPostFile.write(data)`: on first use allocate the spooled file
and write the multipart preamble, then append `data`.  Writing to the
spooled file after it has been closed raises `ValueError`. -/
def MultipartPostFile.write (f : MultipartPostFile) (data : Str) :
    Except PyExc MultipartPostFile :=
  match f.request_body with
  | none =>
      .ok { f with
              request_body := some ({ data := preambleFor f.username f.name ++ data, closed := false }) }
  | some rb =>
      if rb.closed then .error (.valueError (pystr "I/O operation on closed file"))
      else .ok { f with request_body := some { rb with data := rb.data ++ data } }

/-- The closing boundary written by `close` before measuring the body:
CRLF, `--BOUNDARY--`, CRLF. -/
def closingEnvelope : Str := CRLF ++ (pystr "--" ++ BOUNDARY ++ pystr "--") ++ CRLF

/-- One HTTP POST as put on the wire by `MultipartPostFile.close`. -/
structure HTTPPost where
  urlPath : Str
  contentType : Str
  contentLength : Str
  body : Str
deriving DecidableEq

/-- Behaviour of the external HTTP sink during one `close` call: either the
connection is established and a response with a status and reason comes
back, or a connection-level failure occurs. -/
inductive NetOutcome
  | response (status : Nat) (reason : Str)
  | connectionError
deriving DecidableEq

/-- `MultipartPostFile.close()`: a no-op unless the file is still open and
`request_body` exists; otherwise append the closing boundary, measure the
length with `tell()`, issue one POST with the multipart content type and the
measured `Content-Length`, and check the response status (`status // 100`
must be 2, else `UnexpectedHTTPResponse('%d: %s')`).  The `finally` block
marks the file closed and closes the spooled file on every path; a
connection-level failure surfaces as the client primitive's exception and no
request is issued. -/
def MultipartPostFile.close (f : MultipartPostFile) (urlPath : Str) (net : NetOutcome) :
    MultipartPostFile × List HTTPPost × Except PyExc Unit :=
  if f.closed then (f, [], .ok ())
  else
    match f.request_body with
    | none => (f, [], .ok ())
    | some rb =>
        let full := rb.data ++ closingEnvelope
        let fin : MultipartPostFile :=
          { f with closed := true, request_body := some { data := full, closed := true } }
        match net with
        | .connectionError => (fin, [], .error .socketError)
        | .response status reason =>
            let length := full.length
            let post : HTTPPost :=
              { urlPath := urlPath
                contentType := pystr "multipart/form-data; boundary=" ++ BOUNDARY
                contentLength := pystr (Nat.repr length)
                body := full }
            if status / 100 ≠ 2 then
              (fin, [post],
                .error (.unexpectedHTTPResponse (pystr (Nat.repr status) ++ pystr ": " ++ reason)))
            else (fin, [post], .ok ())

/-- Run a sequence of `write` calls (the chunks of one upload). -/
def runWrites (f : MultipartPostFile) : List Str → Except PyExc MultipartPostFile
  | [] => .ok f
  | c :: cs =>
      match f.write c with
      | .ok f' => runWrites f' cs
      | .error e => .error e

/-- Run a sequence of `close` calls, collecting every HTTP POST issued. -/
def runCloses (urlPath : Str) (f : MultipartPostFile) :
    List NetOutcome → MultipartPostFile × List HTTPPost
  | [] => (f, [])
  | n :: ns =>
      let r := f.close urlPath n
      let rest := runCloses urlPath r.1 ns
      (rest.1, r.2.1 ++ rest.2)

/-- State of the data-channel handler seen by `PostDTPHandlerMixin.close`:
the engine flags it reads, the bound file object, and the `_resp` override
(`none` means the engine's default success response is sent). -/
structure DTPState where
  receive : Bool
  transfer_finished : Bool
  engineClosed : Bool
  file_obj : Option MultipartPostFile
  resp : Option Str
deriving DecidableEq

/-- Modelled from the spec: the external protocol engine's data-channel
teardown (`DTPHandler.close` of the engine, reached by `super().close()`),
which releases the channel and then reports the transfer outcome, using the
recorded `_resp` override when present. -/
def superClose (st : DTPState) (posts : List HTTPPost) :
    DTPState × List HTTPPost × Except PyExc Unit :=
  ({ st with engineClosed := true }, posts, .ok ())

/-- `PostDTPHandlerMixin.close()`: when receiving, finished and not yet
closed, force `file_obj.close()`; an `UnexpectedHTTPResponse` is converted
into a 550 `_resp` override; any other exception propagates (so the
engine teardown is not reached on that path). -/
def PostDTPHandlerMixin.close (urlPath : Str) (net : NetOutcome) (st : DTPState) :
    DTPState × List HTTPPost × Except PyExc Unit :=
  if st.receive && st.transfer_finished && !st.engineClosed then
    match st.file_obj with
    | some f =>
        if f.closed then superClose st []
        else
          match f.close urlPath net with
          | (f', posts, .ok _) => superClose { st with file_obj := some f' } posts
          | (f', posts, .error (.unexpectedHTTPResponse m)) =>
              superClose
                { st with file_obj := some f',
                          resp := some (pystr "550 Error transferring to HTTP - " ++ m) }
                posts
          | (f', posts, .error e) => ({ st with file_obj := some f' }, posts, .error e)
    | none => superClose st []
  else superClose st []

/-- `pyftpdlib.authorizers.AuthenticationFailed`, carrying its message. -/
structure AuthenticationFailed where
  msg : Str
deriving DecidableEq

/-- The per-user record built by `AccountAuthorizer.add_user`. -/
structure Account where
  pwd : Str
  home : Str
  perm : Str
  msg_login : Str
  msg_quit : Str
deriving DecidableEq

/-- The entry `add_user(username, password)` stores in `user_table`. -/
def mkUserEntry (username password : Str) : Account :=
  { pwd := password
    home := username
    perm := pystr "elw"
    msg_login := pystr "Login successful."
    msg_quit := pystr "Goodbye." }

/-- The digest algorithms of `AccountAuthorizer.hash_funcs`; each function
models `lambda p: hash_func(p).hexdigest()` for one algorithm. -/
structure HashFamily where
  md5 : Str → Str
  sha1 : Str → Str
  sha224 : Str → Str
  sha256 : Str → Str
  sha384 : Str → Str
  sha512 : Str → Str

/-- A concrete hash family usable for evaluating the authorizer on closed
inputs (each digest function is the identity). -/
def trivialHashes : HashFamily :=
  { md5 := id, sha1 := id, sha224 := id, sha256 := id, sha384 := id, sha512 := id }

/-- `AccountAuthorizer.hash_funcs`, as a tag/function table (one iteration
order of the Python dict; no tag is an initial segment of another, so order
is immaterial). -/
def hash_funcs (H : HashFamily) : List (Str × (Str → Str)) :=
  [ (pystr "md5", H.md5)
  , (pystr "sha1", H.sha1)
  , (pystr "sha224", H.sha224)
  , (pystr "sha256", H.sha256)
  , (pystr "sha384", H.sha384)
  , (pystr "sha512", H.sha512) ]

/-- `DummyAuthorizer.has_user`: membership in `user_table`. -/
def has_user (user_table : List (Str × Account)) (username : Str) : Bool :=
  (List.lookup username user_table).isSome

/-- `AccountAuthorizer.validate_authentication`: unknown users fail (with a
distinguishing message for `anonymous`); for a known non-anonymous user the
presented password is tag-prefixed (`plain:`) or hashed under the stored
record's tag and compared against the full stored value; an unrecognized
tag is a distinct configuration failure.  A known user named `anonymous`
falls through every check and succeeds. -/
def validate_authentication (H : HashFamily) (user_table : List (Str × Account))
    (username password : Str) : Except AuthenticationFailed Unit :=
  let msg := pystr "Authentication failed."
  match List.lookup username user_table with
  | none =>
      .error ⟨if username = pystr "anonymous" then pystr "Anonymous access not allowed." else msg⟩
  | some account =>
      if username ≠ pystr "anonymous" then
        let stored_password := account.pwd
        if startswith (pystr "plain:") stored_password then
          if pystr "plain:" ++ password = stored_password then .ok () else .error ⟨msg⟩
        else
          match (hash_funcs H).find? (fun hf => startswith (hf.1 ++ pystr ":") stored_password) with
          | some (hash_format, hash_func) =>
              if hash_format ++ pystr ":" ++ hash_func password = stored_password then .ok ()
              else .error ⟨msg⟩
          | none => .error ⟨pystr "Unexpected password format in configuration file."⟩
      else .ok ()

/-! ### Helper lemmas about the string primitives -/

theorem startswith_iff (a : Str) : ∀ b, startswith a b = true ↔ ∃ t, b = a ++ t := by
  induction a with
  | nil =>
      intro b
      simp only [startswith, List.nil_append, true_iff]
      exact ⟨b, rfl⟩
  | cons x xs ih =>
      intro b
      cases b with
      | nil =>
          simp only [startswith, Bool.false_eq_true, false_iff]
          rintro ⟨t, ht⟩
          exact List.cons_ne_nil x (xs ++ t) ht.symm
      | cons y ys =>
          simp only [startswith, Bool.and_eq_true, beq_iff_eq, ih]
          constructor
          · rintro ⟨rfl, t, rfl⟩
            exact ⟨t, rfl⟩
          · rintro ⟨t, ht⟩
            obtain ⟨h1, h2⟩ := List.cons.inj ht
            exact ⟨h1.symm, t, h2⟩

theorem startswith_self_append (a t : Str) : startswith a (a ++ t) = true :=
  (startswith_iff a (a ++ t)).mpr ⟨t, rfl⟩

theorem containsSub_head (sub b : Str) : containsSub sub (sub ++ b) = true := by
  cases h : sub ++ b with
  | nil =>
      cases sub with
      | nil => rfl
      | cons s ss => exact absurd h (List.append_ne_nil_of_left_ne_nil (List.cons_ne_nil s ss) b)
  | cons c cs =>
      have hc : containsSub sub (c :: cs) = (startswith sub (c :: cs) || containsSub sub cs) := rfl
      rw [hc, ← h, startswith_self_append]
      rfl

theorem containsSub_of_middle (a sub b : Str) : containsSub sub (a ++ sub ++ b) = true := by
  induction a with
  | nil =>
      simpa only [List.nil_append] using containsSub_head sub b
  | cons x a' ih =>
      simp only [List.cons_append, containsSub, Bool.or_eq_true]
      exact Or.inr ih

/-! ### C7 and C10: claims provable directly from the definitions -/

/-- C7: every operation in the disabled set — mkdir, remove, rename, chmod,
stat, lstat, readlink, getsize, getmtime, mkstemp — raises `FilesystemError`
with a message that names the attempted operation, for every argument. -/
theorem c7_disabled_operations (path src dst mode sfx pfx dir : Str) :
    (∃ m, PostFS.mkdir path = .error ⟨m⟩ ∧ startswith (pystr "mkdir") m = true) ∧
    (∃ m, PostFS.remove path = .error ⟨m⟩ ∧ startswith (pystr "remove") m = true) ∧
    (∃ m, PostFS.rename src dst = .error ⟨m⟩ ∧ startswith (pystr "rename") m = true) ∧
    (∃ m, PostFS.chmod path mode = .error ⟨m⟩ ∧ startswith (pystr "chmod") m = true) ∧
    (∃ m, PostFS.stat path = .error ⟨m⟩ ∧ startswith (pystr "stat") m = true) ∧
    (∃ m, PostFS.lstat path = .error ⟨m⟩ ∧ startswith (pystr "lstat") m = true) ∧
    (∃ m, PostFS.readlink path = .error ⟨m⟩ ∧ startswith (pystr "readlink") m = true) ∧
    (∃ m, PostFS.getsize path = .error ⟨m⟩ ∧ startswith (pystr "getsize") m = true) ∧
    (∃ m, PostFS.getmtime path = .error ⟨m⟩ ∧ startswith (pystr "getmtime") m = true) ∧
    (∃ m, PostFS.mkstemp sfx pfx dir mode = .error ⟨m⟩ ∧ startswith (pystr "mkstemp") m = true) :=
  ⟨⟨_, rfl, rfl⟩, ⟨_, rfl, rfl⟩, ⟨_, rfl, rfl⟩, ⟨_, rfl, rfl⟩, ⟨_, rfl, rfl⟩,
   ⟨_, rfl, rfl⟩, ⟨_, rfl, rfl⟩, ⟨_, rfl, rfl⟩, ⟨_, rfl, rfl⟩, ⟨_, rfl, rfl⟩⟩

/-- C10: closing an `UploadSink` that was never written to leaves the state
untouched (in particular no staging buffer is allocated) and issues no HTTP
POST, under every network behaviour. -/
theorem c10_zero_byte_upload_no_post (nm urlPath : Str) (net : NetOutcome) :
    (MultipartPostFile.init nm).close urlPath net = (MultipartPostFile.init nm, [], .ok ()) :=
  rfl

/-- C1 (code bug): when an account literally named "anonymous" is present in
the account table, `validate_authentication("anonymous", password)` returns
success for every presented password, skipping the password check — the
claim (and the method's own docstring) say it must fail. -/
theorem c1_anonymous_account_bypasses_password (H : HashFamily) (password : Str) :
    validate_authentication H
      [(pystr "anonymous", mkUserEntry (pystr "anonymous") (pystr "plain:hunter2"))]
      (pystr "anonymous") password = .ok () :=
  rfl

/-! ### Lifecycle lemmas for the upload sink -/

theorem close_of_closed (f : MultipartPostFile) (hc : f.closed = true)
    (urlPath : Str) (net : NetOutcome) : f.close urlPath net = (f, [], .ok ()) := by
  unfold MultipartPostFile.close
  rw [hc]
  rfl

theorem runCloses_of_closed (urlPath : Str) (f : MultipartPostFile) (hc : f.closed = true) :
    ∀ nets, runCloses urlPath f nets = (f, []) := by
  intro nets
  induction nets with
  | nil => rfl
  | cons n ns ih =>
      unfold runCloses
      rw [close_of_closed f hc]
      simp only []
      rw [ih]
      rfl

theorem runWrites_open (u nm : Str) (c : Bool) (cs : List Str) :
    ∀ d, runWrites ⟨u, nm, c, some ⟨d, false⟩⟩ cs =
      .ok ⟨u, nm, c, some ⟨d ++ cs.flatten, false⟩⟩ := by
  induction cs with
  | nil => intro d; simp [runWrites]
  | cons x xs ih =>
      intro d
      have h1 : runWrites (⟨u, nm, c, some ⟨d, false⟩⟩ : MultipartPostFile) (x :: xs) =
          runWrites ⟨u, nm, c, some ⟨d ++ x, false⟩⟩ xs := rfl
      rw [h1, ih]
      simp [List.append_assoc]

theorem write_first (nm x : Str) :
    (MultipartPostFile.init nm).write x =
      .ok ⟨(MultipartPostFile.init nm).username, (MultipartPostFile.init nm).name, false,
           some ⟨preambleFor (MultipartPostFile.init nm).username (MultipartPostFile.init nm).name ++ x,
                 false⟩⟩ := rfl

theorem runWrites_shape (nm : Str) (x : Str) (xs : List Str) :
    runWrites (MultipartPostFile.init nm) (x :: xs) =
      .ok ⟨(MultipartPostFile.init nm).username, (MultipartPostFile.init nm).name, false,
           some ⟨preambleFor (MultipartPostFile.init nm).username (MultipartPostFile.init nm).name
                   ++ (x :: xs).flatten, false⟩⟩ := by
  have h1 : runWrites (MultipartPostFile.init nm) (x :: xs) =
      runWrites ⟨(MultipartPostFile.init nm).username, (MultipartPostFile.init nm).name, false,
        some ⟨preambleFor (MultipartPostFile.init nm).username (MultipartPostFile.init nm).name ++ x,
              false⟩⟩ xs := rfl
  rw [h1, runWrites_open]
  simp [List.append_assoc]

/-! ### C9: state after finalize -/

/-- C9 (counterexample): after an upload is written and finalized, a further
`write` raises `ValueError` (write on a closed spooled file) instead of
being a no-op. -/
theorem c9_counterexample_write_after_finalize_raises :
    ∃ f₁, (MultipartPostFile.init (pystr "u/a.txt")).write (pystr "x") = .ok f₁ ∧
      ∃ m, ((f₁.close (pystr "/upload") (.response 204 (pystr "No Content"))).1.write (pystr "y"))
             = .error (.valueError m) :=
  ⟨_, rfl, _, rfl⟩

/-- C9 (amended): once a sink is finalized (closed flag set, spooled file
closed), a second finalize is a no-op — same state, no POST, no exception —
while a further `write` raises `ValueError` (write on a closed file) rather
than being ignored; no network I/O happens on either call. -/
theorem c9_after_finalize (f : MultipartPostFile) (rb : SpooledTemporaryFile)
    (hc : f.closed = true) (hrb : f.request_body = some rb) (hrbc : rb.closed = true) :
    (∀ urlPath net, f.close urlPath net = (f, [], .ok ())) ∧
    (∀ data, f.write data = .error (.valueError (pystr "I/O operation on closed file"))) := by
  refine ⟨fun urlPath net => close_of_closed f hc urlPath net, fun data => ?_⟩
  obtain ⟨u, nm, c, r⟩ := f
  obtain ⟨d, rc⟩ := rb
  simp only at hrb hrbc
  subst hrb hrbc
  rfl

theorem close_open_response (u nm : Str) (rc : Bool) (d urlPath r : Str) (s : Nat) :
    MultipartPostFile.close ⟨u, nm, false, some ⟨d, rc⟩⟩ urlPath (.response s r) =
      (⟨u, nm, true, some ⟨d ++ closingEnvelope, true⟩⟩,
       [⟨urlPath, pystr "multipart/form-data; boundary=" ++ BOUNDARY,
         pystr (Nat.repr (d ++ closingEnvelope).length), d ++ closingEnvelope⟩],
       if s / 100 ≠ 2 then
         .error (.unexpectedHTTPResponse (pystr (Nat.repr s) ++ pystr ": " ++ r))
       else .ok ()) := by
  by_cases h : s / 100 = 2
  · rw [if_neg (not_not_intro h)]
    unfold MultipartPostFile.close
    simp only []
    rw [if_neg (not_not_intro h)]
    rfl
  · rw [if_pos h]
    unfold MultipartPostFile.close
    simp only []
    rw [if_pos h]
    rfl

theorem close_open_connError (u nm : Str) (rc : Bool) (d urlPath : Str) :
    MultipartPostFile.close ⟨u, nm, false, some ⟨d, rc⟩⟩ urlPath .connectionError =
      (⟨u, nm, true, some ⟨d ++ closingEnvelope, true⟩⟩, [], .error .socketError) := rfl

/-! ### C6: connection-level failures -/

/-- C6 (counterexample): a connection-level failure during finalize is not
converted by the completion hook into a protocol response — it escapes
`PostDTPHandlerMixin.close` as the raw socket error (only
`UnexpectedHTTPResponse` is caught), so the claimed typed
`UpstreamUnreachable` error and the no-escape guarantee do not hold. -/
theorem c6_counterexample_conn_error_escapes :
    ∃ f₁, (MultipartPostFile.init (pystr "u/a.txt")).write (pystr "x") = .ok f₁ ∧
      (PostDTPHandlerMixin.close (pystr "/upload") .connectionError
        { receive := true, transfer_finished := true, engineClosed := false,
          file_obj := some f₁, resp := none }).2.2 = .error .socketError :=
  ⟨_, rfl, rfl⟩

/-- C6 (amended): a connection-level failure during finalize surfaces as the
HTTP client primitive's own exception (no distinct typed error exists in the
code); the completion hook does not catch it, so it escapes the hook with no
POST issued, no 550 response recorded, and the engine teardown not reached. -/
theorem c6_conn_error_propagates (url : Str) (st : DTPState)
    (f : MultipartPostFile) (rb : SpooledTemporaryFile)
    (h1 : st.receive = true) (h2 : st.transfer_finished = true)
    (h3 : st.engineClosed = false) (h4 : st.file_obj = some f)
    (h5 : f.closed = false) (h6 : f.request_body = some rb) :
    (PostDTPHandlerMixin.close url .connectionError st).2.2 = .error .socketError ∧
    (PostDTPHandlerMixin.close url .connectionError st).2.1 = [] ∧
    (PostDTPHandlerMixin.close url .connectionError st).1.resp = st.resp ∧
    (PostDTPHandlerMixin.close url .connectionError st).1.engineClosed = false := by
  obtain ⟨a, b, c, fo, re⟩ := st
  simp only at h1 h2 h3 h4
  subst h1 h2 h3 h4
  obtain ⟨u, nm, fc, r⟩ := f
  simp only at h5 h6
  subst h5 h6
  obtain ⟨d, rc⟩ := rb
  exact ⟨rfl, rfl, rfl, rfl⟩

/-- C6 (amended) witness at concrete inputs. -/
theorem c6_conn_error_propagates_witness :
    (PostDTPHandlerMixin.close (pystr "/up") .connectionError
      { receive := true, transfer_finished := true, engineClosed := false,
        file_obj := some ⟨pystr "u", pystr "a", false, some ⟨pystr "body", false⟩⟩,
        resp := none }).2.2 = .error .socketError :=
  (c6_conn_error_propagates (pystr "/up")
    { receive := true, transfer_finished := true, engineClosed := false,
      file_obj := some ⟨pystr "u", pystr "a", false, some ⟨pystr "body", false⟩⟩,
      resp := none }
    ⟨pystr "u", pystr "a", false, some ⟨pystr "body", false⟩⟩
    ⟨pystr "body", false⟩ rfl rfl rfl rfl rfl rfl).1

/-! ### C3 and C2: exactly one POST per upload -/

/-- C3: after at least one write, the first finalize on which the HTTP sink
answers issues exactly one POST, and every subsequent finalize returns
immediately with the state unchanged and no further POST. -/
theorem c3_close_idempotent_single_post (url nm : Str) (chunks : List Str)
    (hne : chunks ≠ []) (f₁ : MultipartPostFile)
    (hw : runWrites (MultipartPostFile.init nm) chunks = .ok f₁)
    (s : Nat) (r : Str) (nets : List NetOutcome) :
    (f₁.close url (.response s r)).2.1.length = 1 ∧
    runCloses url (f₁.close url (.response s r)).1 nets =
      ((f₁.close url (.response s r)).1, []) := by
  obtain ⟨x, xs, rfl⟩ : ∃ x xs, chunks = x :: xs := by
    cases chunks with
    | nil => exact absurd rfl hne
    | cons x xs => exact ⟨x, xs, rfl⟩
  rw [runWrites_shape] at hw
  obtain rfl := (Except.ok.inj hw)
  rw [close_open_response]
  exact ⟨rfl, runCloses_of_closed url _ rfl nets⟩

/-- C3 witness at concrete inputs. -/
theorem c3_witness :
    ∃ f₁, runWrites (MultipartPostFile.init (pystr "alice/f.txt")) [pystr "hi"] = .ok f₁ ∧
      (f₁.close (pystr "/up") (.response 204 (pystr "OK"))).2.1.length = 1 :=
  ⟨_, rfl,
   (c3_close_idempotent_single_post (pystr "/up") (pystr "alice/f.txt") [pystr "hi"]
      (by decide) _ rfl 204 (pystr "OK") []).1⟩

/-- C2: writing the chunks and finalizing issues exactly one POST whose body
is the multipart preamble, then the concatenation of the chunks, then the
closing boundary, and whose Content-Length header is the decimal byte length
of that full enveloped body. -/
theorem c2_single_post_body_and_length (url nm : Str) (chunks : List Str)
    (hne : chunks ≠ []) (s : Nat) (r : Str) :
    ∃ f₁, runWrites (MultipartPostFile.init nm) chunks = .ok f₁ ∧
      (f₁.close url (.response s r)).2.1.length = 1 ∧
      ∀ p ∈ (f₁.close url (.response s r)).2.1,
        p.body = preambleFor (MultipartPostFile.init nm).username (MultipartPostFile.init nm).name
                   ++ chunks.flatten ++ closingEnvelope ∧
        p.contentLength = pystr (Nat.repr p.body.length) := by
  obtain ⟨x, xs, rfl⟩ : ∃ x xs, chunks = x :: xs := by
    cases chunks with
    | nil => exact absurd rfl hne
    | cons x xs => exact ⟨x, xs, rfl⟩
  refine ⟨_, runWrites_shape nm x xs, ?_⟩
  rw [close_open_response]
  refine ⟨rfl, ?_⟩
  intro p hp
  rw [List.mem_singleton] at hp
  subst hp
  exact ⟨by simp [List.append_assoc], rfl⟩

/-- C2 witness at concrete inputs. -/
theorem c2_witness :
    ∃ f₁, runWrites (MultipartPostFile.init (pystr "bob/g.bin")) [pystr "ab", pystr "cd"] = .ok f₁ ∧
      (f₁.close (pystr "/up") (.response 201 (pystr "Created"))).2.1.length = 1 ∧
      ∀ p ∈ (f₁.close (pystr "/up") (.response 201 (pystr "Created"))).2.1,
        p.body = preambleFor (MultipartPostFile.init (pystr "bob/g.bin")).username
                   (MultipartPostFile.init (pystr "bob/g.bin")).name
                   ++ ([pystr "ab", pystr "cd"] : List Str).flatten ++ closingEnvelope ∧
        p.contentLength = pystr (Nat.repr p.body.length) :=
  c2_single_post_body_and_length (pystr "/up") (pystr "bob/g.bin") [pystr "ab", pystr "cd"]
    (by decide) 201 (pystr "Created")

/-! ### C5: HTTP status handling -/

/-- C5: a 500 upstream response makes the completion hook record a 550
protocol response whose message contains "500" (and the hook itself raises
nothing); a 204 response leaves the default success response in place; in
general every status in 200-299 makes finalize succeed and every status
outside that range raises `UnexpectedHTTPResponse` carrying the decimal
status code and the reason text. -/
theorem c5_status_outcomes (url : Str) (st : DTPState)
    (f : MultipartPostFile) (rb : SpooledTemporaryFile)
    (h1 : st.receive = true) (h2 : st.transfer_finished = true)
    (h3 : st.engineClosed = false) (h4 : st.file_obj = some f)
    (h5 : f.closed = false) (h6 : f.request_body = some rb)
    (h7 : st.resp = none) :
    (∀ reason, ∃ m,
        (PostDTPHandlerMixin.close url (.response 500 reason) st).1.resp = some m ∧
        startswith (pystr "550") m = true ∧
        containsSub (pystr "500") m = true ∧
        (PostDTPHandlerMixin.close url (.response 500 reason) st).2.2 = .ok ()) ∧
    (∀ reason,
        (PostDTPHandlerMixin.close url (.response 204 reason) st).2.2 = .ok () ∧
        (PostDTPHandlerMixin.close url (.response 204 reason) st).1.resp = none) ∧
    (∀ status reason, 200 ≤ status → status ≤ 299 →
        (f.close url (.response status reason)).2.2 = .ok ()) ∧
    (∀ status reason, status < 200 ∨ 300 ≤ status →
        (f.close url (.response status reason)).2.2 =
          .error (.unexpectedHTTPResponse (pystr (Nat.repr status) ++ pystr ": " ++ reason))) := by
  obtain ⟨a, b, c, fo, re⟩ := st
  simp only at h1 h2 h3 h4 h7
  subst h1 h2 h3 h4 h7
  obtain ⟨u, nm, fc, rbo⟩ := f
  simp only at h5 h6
  subst h5 h6
  obtain ⟨d, rc⟩ := rb
  refine ⟨?_, ?_, ?_, ?_⟩
  · intro reason
    exact ⟨pystr "550 Error transferring to HTTP - " ++ (pystr (Nat.repr 500) ++ pystr ": " ++ reason),
           rfl, rfl,
           containsSub_of_middle (pystr "550 Error transferring to HTTP - ") (pystr "500")
             (pystr ": " ++ reason),
           rfl⟩
  · intro reason
    exact ⟨rfl, rfl⟩
  · intro status reason hlo hhi
    rw [close_open_response]
    simp only []
    rw [if_neg (by omega)]
  · intro status reason hout
    rw [close_open_response]
    simp only []
    rw [if_pos (by omega)]

/-- C5 witness at concrete inputs. -/
theorem c5_witness :
    ∃ m,
      (PostDTPHandlerMixin.close (pystr "/up") (.response 500 (pystr "Internal Server Error"))
        { receive := true, transfer_finished := true, engineClosed := false,
          file_obj := some ⟨pystr "u", pystr "a", false, some ⟨pystr "body", false⟩⟩,
          resp := none }).1.resp = some m ∧
      startswith (pystr "550") m = true ∧
      containsSub (pystr "500") m = true ∧
      (PostDTPHandlerMixin.close (pystr "/up") (.response 500 (pystr "Internal Server Error"))
        { receive := true, transfer_finished := true, engineClosed := false,
          file_obj := some ⟨pystr "u", pystr "a", false, some ⟨pystr "body", false⟩⟩,
          resp := none }).2.2 = .ok () :=
  (c5_status_outcomes (pystr "/up")
    { receive := true, transfer_finished := true, engineClosed := false,
      file_obj := some ⟨pystr "u", pystr "a", false, some ⟨pystr "body", false⟩⟩,
      resp := none }
    ⟨pystr "u", pystr "a", false, some ⟨pystr "body", false⟩⟩
    ⟨pystr "body", false⟩ rfl rfl rfl rfl rfl rfl rfl).1 (pystr "Internal Server Error")

/-- C9 (amended) witness at concrete inputs. -/
theorem c9_witness :
    (MultipartPostFile.close ⟨pystr "u", pystr "a", true, some ⟨pystr "d", true⟩⟩
        (pystr "/up") (.response 204 (pystr "OK"))
      = (⟨pystr "u", pystr "a", true, some ⟨pystr "d", true⟩⟩, [], .ok ())) ∧
    ((⟨pystr "u", pystr "a", true, some ⟨pystr "d", true⟩⟩ : MultipartPostFile).write (pystr "x")
      = .error (.valueError (pystr "I/O operation on closed file"))) :=
  ⟨(c9_after_finalize ⟨pystr "u", pystr "a", true, some ⟨pystr "d", true⟩⟩ ⟨pystr "d", true⟩
      rfl rfl rfl).1 (pystr "/up") (.response 204 (pystr "OK")),
   (c9_after_finalize ⟨pystr "u", pystr "a", true, some ⟨pystr "d", true⟩⟩ ⟨pystr "d", true⟩
      rfl rfl rfl).2 (pystr "x")⟩

/-! ### C8: tagged password verification -/

/-- C8: with a stored record `sha256:` + digest("secret"), verification
succeeds for "secret" and fails for "wrong"; with `plain:secret` the same
holds without hashing; and verification can only succeed when the presented
password, tag-prefixed under the stored record's own tag, equals the full
stored value — so a digest under one algorithm never matches a record stored
under a different algorithm's tag. -/
theorem c8_tagged_password_verification (H : HashFamily) (u : Str)
    (hu : u ≠ pystr "anonymous")
    (hne : H.sha256 (pystr "wrong") ≠ H.sha256 (pystr "secret")) :
    (validate_authentication H
        [(u, mkUserEntry u (pystr "sha256:" ++ H.sha256 (pystr "secret")))] u (pystr "secret")
      = .ok ()) ∧
    (validate_authentication H
        [(u, mkUserEntry u (pystr "sha256:" ++ H.sha256 (pystr "secret")))] u (pystr "wrong")
      = .error ⟨pystr "Authentication failed."⟩) ∧
    (validate_authentication H [(u, mkUserEntry u (pystr "plain:secret"))] u (pystr "secret")
      = .ok ()) ∧
    (validate_authentication H [(u, mkUserEntry u (pystr "plain:secret"))] u (pystr "wrong")
      = .error ⟨pystr "Authentication failed."⟩) ∧
    (∀ stored pw, validate_authentication H [(u, mkUserEntry u stored)] u pw = .ok () →
        stored = pystr "plain:" ++ pw ∨
        ∃ t fdig, (t, fdig) ∈ hash_funcs H ∧ stored = t ++ pystr ":" ++ fdig pw) := by
  have hlookup : ∀ (e : Account), List.lookup u [(u, e)] = some e := by
    intro e
    simp [List.lookup]
  have hsw : startswith (pystr "plain:") (pystr "sha256:" ++ H.sha256 (pystr "secret")) = false := rfl
  have hfindsha : List.find?
      (fun hf => startswith (hf.1 ++ pystr ":") (pystr "sha256:" ++ H.sha256 (pystr "secret")))
      (hash_funcs H) = some (pystr "sha256", H.sha256) := rfl
  refine ⟨?_, ?_, ?_, ?_, ?_⟩
  · simp only [validate_authentication, hlookup, hu, mkUserEntry, hsw, hfindsha]
    rw [if_pos hu,
        if_neg Bool.false_ne_true,
        if_pos (show pystr "sha256" ++ pystr ":" ++ H.sha256 (pystr "secret")
                  = pystr "sha256:" ++ H.sha256 (pystr "secret") from rfl)]
  · simp only [validate_authentication, hlookup, hu, mkUserEntry, hsw, hfindsha]
    rw [if_pos hu, if_neg Bool.false_ne_true, if_neg]
    intro hcontra
    have : H.sha256 (pystr "wrong") = H.sha256 (pystr "secret") :=
      List.append_cancel_left
        (show pystr "sha256:" ++ H.sha256 (pystr "wrong")
            = pystr "sha256:" ++ H.sha256 (pystr "secret") from hcontra)
    exact hne this
  · simp only [validate_authentication, hlookup, hu, mkUserEntry]
    rw [if_pos hu]
    rfl
  · simp only [validate_authentication, hlookup, hu, mkUserEntry]
    rw [if_pos hu]
    rfl
  · intro stored pw hok
    simp only [validate_authentication, hlookup, hu, mkUserEntry] at hok
    rw [if_pos hu] at hok
    by_cases hsp : startswith (pystr "plain:") stored = true
    · rw [if_pos hsp] at hok
      by_cases heq : pystr "plain:" ++ pw = stored
      · exact Or.inl heq.symm
      · rw [if_neg heq] at hok
        exact absurd hok (by simp)
    · rw [if_neg hsp] at hok
      cases hfind : List.find? (fun hf => startswith (hf.1 ++ pystr ":") stored) (hash_funcs H) with
      | none =>
          rw [hfind] at hok
          exact absurd hok (by simp)
      | some tf =>
          obtain ⟨t, fdig⟩ := tf
          rw [hfind] at hok
          by_cases heq : t ++ pystr ":" ++ fdig pw = stored
          · exact Or.inr ⟨t, fdig, List.mem_of_find?_eq_some hfind, heq.symm⟩
          · simp only [if_neg heq] at hok
            exact absurd hok (by simp)

/-- C8 witness at concrete inputs (digest functions instantiated). -/
theorem c8_witness :
    (validate_authentication trivialHashes
        [(pystr "alice", mkUserEntry (pystr "alice")
            (pystr "sha256:" ++ trivialHashes.sha256 (pystr "secret")))]
        (pystr "alice") (pystr "secret") = .ok ()) ∧
    (validate_authentication trivialHashes
        [(pystr "alice", mkUserEntry (pystr "alice")
            (pystr "sha256:" ++ trivialHashes.sha256 (pystr "secret")))]
        (pystr "alice") (pystr "wrong") = .error ⟨pystr "Authentication failed."⟩) :=
  ⟨(c8_tagged_password_verification trivialHashes (pystr "alice") (by decide) (by decide)).1,
   (c8_tagged_password_verification trivialHashes (pystr "alice") (by decide) (by decide)).2.1⟩

/-! ### C4: path containment lemmas -/

theorem splitSlash_ne_nil (s : Str) : splitSlash s ≠ [] := by
  induction s with
  | nil => simp [splitSlash]
  | cons c cs ih =>
      unfold splitSlash
      by_cases h : c = '/'
      · rw [if_pos h]
        simp
      · rw [if_neg h]
        cases hs : splitSlash cs with
        | nil => exact absurd hs ih
        | cons a l => simp

theorem splitSlash_no_slash (s : Str) : ∀ c ∈ splitSlash s, '/' ∉ c := by
  induction s with
  | nil =>
      intro c hc
      simp [splitSlash] at hc
      subst hc
      simp
  | cons x xs ih =>
      intro c hc
      unfold splitSlash at hc
      by_cases h : x = '/'
      · rw [if_pos h] at hc
        rcases List.mem_cons.mp hc with rfl | hmem
        · simp
        · exact ih c hmem
      · rw [if_neg h] at hc
        cases hs : splitSlash xs with
        | nil => exact absurd hs (splitSlash_ne_nil xs)
        | cons a l =>
            rw [hs] at hc
            rcases List.mem_cons.mp hc with rfl | hmem
            · intro hin
              rcases List.mem_cons.mp hin with h' | h'
              · exact h h'.symm
              · exact ih a (hs ▸ List.mem_cons_self a l) h'
            · exact ih c (hs ▸ List.mem_cons.mpr (Or.inr hmem))

theorem foldl_normStep_inv (k : Nat) (comps : List Str) :
    ∀ acc, (∀ c ∈ acc, c ≠ [] ∧ '/' ∉ c) → (∀ c ∈ comps, '/' ∉ c) →
      ∀ c ∈ comps.foldl (normStep k) acc, c ≠ [] ∧ '/' ∉ c := by
  induction comps with
  | nil => intro acc hacc _ c hc; exact hacc c hc
  | cons x xs ih =>
      intro acc hacc hcomps
      rw [List.foldl_cons]
      refine ih (normStep k acc x) ?_ (fun c hc => hcomps c (List.mem_cons.mpr (Or.inr hc)))
      intro c hc
      unfold normStep at hc
      by_cases h1 : x = [] ∨ x = pystr "."
      · rw [if_pos h1] at hc
        exact hacc c hc
      · rw [if_neg h1] at hc
        by_cases h2 : x ≠ pystr ".." ∨ (k = 0 ∧ acc = []) ∨ (acc ≠ [] ∧ acc.getLast? = some (pystr ".."))
        · rw [if_pos h2] at hc
          rcases List.mem_append.mp hc with hmem | hx
          · exact hacc c hmem
          · rw [List.mem_singleton] at hx
            subst hx
            push_neg at h1
            exact ⟨h1.1, hcomps c (List.mem_cons_self c xs)⟩
        · rw [if_neg h2] at hc
          by_cases h3 : acc ≠ []
          · rw [if_pos h3] at hc
            exact hacc c (List.dropLast_subset acc hc)
          · rw [if_neg h3] at hc
            exact hacc c hc

theorem joinSlash_ne_nil (cs : List Str) (hne : cs ≠ []) (hcs : ∀ c ∈ cs, c ≠ []) :
    joinSlash cs ≠ [] := by
  cases cs with
  | nil => exact absurd rfl hne
  | cons c cs' =>
      cases cs' with
      | nil => exact hcs c (List.mem_cons_self c [])
      | cons c' cs'' =>
          show c ++ '/' :: joinSlash (c' :: cs'') ≠ []
          exact List.append_ne_nil_of_right_ne_nil c (List.cons_ne_nil _ _)

theorem getLast?_append_right (a b : Str) (hb : b ≠ []) :
    (a ++ b).getLast? = b.getLast? := by
  rw [List.getLast?_append]
  cases hbl : b.getLast? with
  | none => exact absurd (List.getLast?_eq_none_iff.mp hbl) hb
  | some x => rfl

theorem joinSlash_getLast_ne_slash (cs : List Str) :
    cs ≠ [] → (∀ c ∈ cs, c ≠ [] ∧ '/' ∉ c) → (joinSlash cs).getLast? ≠ some '/' := by
  induction cs with
  | nil => intro hne _; exact absurd rfl hne
  | cons c cs' ih =>
      intro _ hcs
      cases cs' with
      | nil =>
          intro h
          have hc := hcs c (List.mem_cons_self c [])
          have hcne : c ≠ [] := hc.1
          rw [show joinSlash [c] = c from rfl, List.getLast?_eq_getLast c hcne] at h
          exact hc.2 (Option.some.inj h ▸ List.getLast_mem hcne)
      | cons c' cs'' =>
          have hrest : joinSlash (c' :: cs'') ≠ [] :=
            joinSlash_ne_nil _ (List.cons_ne_nil _ _)
              (fun x hx => (hcs x (List.mem_cons.mpr (Or.inr hx))).1)
          rw [show joinSlash (c :: c' :: cs'') = c ++ '/' :: joinSlash (c' :: cs'') from rfl,
              getLast?_append_right _ _ (List.cons_ne_nil _ _)]
          cases hjs : joinSlash (c' :: cs'') with
          | nil => exact absurd hjs hrest
          | cons y ys =>
              rw [List.getLast?_cons_cons, ← hjs]
              exact ih (List.cons_ne_nil _ _)
                (fun x hx => hcs x (List.mem_cons.mpr (Or.inr hx)))

theorem normpath_ne_nil (p : Str) : normpath p ≠ [] := by
  simp only [normpath]
  split
  · decide
  · split
    · decide
    · next h2 => exact h2

theorem initialSlashes_le_two (p : Str) : initialSlashes p ≤ 2 := by
  unfold initialSlashes
  split
  · split
    · exact Nat.le_refl 2
    · omega
  · exact Nat.zero_le 2

theorem normpath_getLast_slash (p : Str) :
    (normpath p).getLast? = some '/' → normpath p = pystr "/" ∨ normpath p = pystr "//" := by
  intro h
  by_cases hp : p = []
  · rw [show normpath p = pystr "." by simp [normpath, hp]] at h
    exact absurd h (by decide)
  · have hnp : normpath p =
        (if List.replicate (initialSlashes p) '/'
              ++ joinSlash ((splitSlash p).foldl (normStep (initialSlashes p)) []) = []
         then pystr "."
         else List.replicate (initialSlashes p) '/'
              ++ joinSlash ((splitSlash p).foldl (normStep (initialSlashes p)) [])) := by
      simp only [normpath, if_neg hp]
    by_cases hj : List.replicate (initialSlashes p) '/'
        ++ joinSlash ((splitSlash p).foldl (normStep (initialSlashes p)) []) = []
    · rw [hnp, if_pos hj] at h
      exact absurd h (by decide)
    · rw [hnp, if_neg hj] at h ⊢
      have hinv : ∀ c ∈ (splitSlash p).foldl (normStep (initialSlashes p)) [], c ≠ [] ∧ '/' ∉ c :=
        foldl_normStep_inv (initialSlashes p) (splitSlash p) [] (by simp) (splitSlash_no_slash p)
      cases hNC : (splitSlash p).foldl (normStep (initialSlashes p)) [] with
      | nil =>
          rw [hNC] at hj
          rw [show joinSlash [] = [] from rfl, List.append_nil] at hj ⊢
          have hk := initialSlashes_le_two p
          have h012 : initialSlashes p = 0 ∨ initialSlashes p = 1 ∨ initialSlashes p = 2 := by
            omega
          rcases h012 with h0 | h1 | h2
          · rw [h0] at hj
            exact absurd rfl hj
          · rw [h1]
            exact Or.inl rfl
          · rw [h2]
            exact Or.inr rfl
      | cons c cs' =>
          rw [hNC] at h
          have hjs : joinSlash (c :: cs') ≠ [] :=
            joinSlash_ne_nil _ (List.cons_ne_nil _ _)
              (fun x hx => ((hNC ▸ hinv) x hx).1)
          rw [getLast?_append_right _ _ hjs] at h
          exact absurd h (joinSlash_getLast_ne_slash (c :: cs') (List.cons_ne_nil _ _) (hNC ▸ hinv))

theorem startswith_addSep_iff (r q : Str) (hr0 : r ≠ []) (hq0 : q ≠ [])
    (hr : r.getLast? = some '/' → r = pystr "/" ∨ r = pystr "//")
    (hq : q.getLast? = some '/' → q = pystr "/" ∨ q = pystr "//") :
    startswith (addSep r) (addSep q) = true ↔
      q = r ∨ ∃ rest, rest ≠ [] ∧ q = addSep r ++ rest := by
  by_cases hre : r.getLast? = some '/'
  · -- the normalized root ends in '/', so it is "/" or "//" and addSep keeps it
    have har : addSep r = r := by rw [addSep, if_pos hre]
    by_cases hqe : q.getLast? = some '/'
    · have haq : addSep q = q := by rw [addSep, if_pos hqe]
      rw [har, haq]
      rcases hr hre with rfl | rfl <;> rcases hq hqe with rfl | rfl
      · exact ⟨fun _ => Or.inl rfl, fun _ => rfl⟩
      · exact ⟨fun _ => Or.inr ⟨pystr "/", by decide, by decide⟩, fun _ => rfl⟩
      · constructor
        · intro h
          exact absurd h (by decide)
        · rintro (h | ⟨rest, hrne, hqeq⟩)
          · exact absurd h (by decide)
          · exfalso
            have hlen := congrArg List.length hqeq
            have h3 : rest.length ≠ 0 := fun hh => hrne (List.length_eq_zero.mp hh)
            rw [List.length_append, show List.length (pystr "/") = 1 from rfl,
                show List.length (pystr "//") = 2 from rfl] at hlen
            omega
      · exact ⟨fun _ => Or.inl rfl, fun _ => rfl⟩
    · have haq : addSep q = q ++ pystr "/" := by rw [addSep, if_neg hqe]
      rcases hr hre with rfl | rfl
      · -- r = "/"
        rw [har, haq]
        constructor
        · intro hsw
          obtain ⟨t, ht⟩ := (startswith_iff _ _).mp hsw
          cases q with
          | nil => exact absurd rfl hq0
          | cons y ys =>
              rw [List.cons_append] at ht
              obtain ⟨rfl, ht2⟩ := List.cons.inj ht
              cases ys with
              | nil => exact absurd rfl hqe
              | cons z zs =>
                  exact Or.inr ⟨z :: zs, List.cons_ne_nil z zs, rfl⟩
        · rintro (rfl | ⟨rest, hrne, hqeq⟩)
          · exact absurd rfl hqe
          · exact (startswith_iff _ _).mpr ⟨rest ++ pystr "/", by rw [hqeq, List.append_assoc]⟩
      · -- r = "//"
        rw [har, haq]
        constructor
        · intro hsw
          obtain ⟨t, ht⟩ := (startswith_iff _ _).mp hsw
          cases q with
          | nil => exact absurd rfl hq0
          | cons y ys =>
              rw [List.cons_append] at ht
              obtain ⟨rfl, ht2⟩ := List.cons.inj ht
              cases ys with
              | nil =>
                  exact absurd rfl hqe
              | cons z zs =>
                  rw [List.cons_append] at ht2
                  obtain ⟨rfl, ht3⟩ := List.cons.inj ht2
                  cases zs with
                  | nil => exact absurd rfl hqe
                  | cons w ws =>
                      exact Or.inr ⟨w :: ws, List.cons_ne_nil w ws, rfl⟩
        · rintro (rfl | ⟨rest, hrne, hqeq⟩)
          · exact absurd rfl hqe
          · exact (startswith_iff _ _).mpr ⟨rest ++ pystr "/", by rw [hqeq, List.append_assoc]⟩
  · -- the normalized root does not end in '/'
    have har : addSep r = r ++ pystr "/" := by rw [addSep, if_neg hre]
    by_cases hqe : q.getLast? = some '/'
    · have haq : addSep q = q := by rw [addSep, if_pos hqe]
      rcases hq hqe with rfl | rfl
      · -- q = "/"
        rw [har, haq]
        constructor
        · intro hsw
          obtain ⟨t, ht⟩ := (startswith_iff _ _).mp hsw
          have := congrArg List.length ht
          simp at this
          exact absurd (List.length_eq_zero.mp (by omega)) hr0
        · rintro (rfl | ⟨rest, hrne, hqeq⟩)
          · exact absurd rfl hre
          · exfalso
            have hlen := congrArg List.length hqeq
            have h3 : rest.length ≠ 0 := fun hh => hrne (List.length_eq_zero.mp hh)
            have h4 : r.length ≠ 0 := fun hh => hr0 (List.length_eq_zero.mp hh)
            simp at hlen
            omega
      · -- q = "//"
        rw [har, haq]
        constructor
        · intro hsw
          obtain ⟨t, ht⟩ := (startswith_iff _ _).mp hsw
          cases r with
          | nil => exact absurd rfl hr0
          | cons a as =>
              rw [List.cons_append, List.cons_append] at ht
              obtain ⟨rfl, ht2⟩ := List.cons.inj ht
              cases as with
              | nil =>
                  simp only [List.nil_append] at ht2
                  obtain ⟨-, ht3⟩ := List.cons.inj ht2
                  exact absurd rfl hre
              | cons b bs =>
                  rw [List.cons_append] at ht2
                  obtain ⟨rfl, ht3⟩ := List.cons.inj ht2
                  exfalso
                  have h' : (bs ++ pystr "/") ++ t = [] := ht3.symm
                  obtain ⟨h1, -⟩ := List.append_eq_nil.mp h'
                  obtain ⟨-, h2⟩ := List.append_eq_nil.mp h1
                  exact absurd h2 (by decide)
        · rintro (rfl | ⟨rest, hrne, hqeq⟩)
          · exact absurd rfl hre
          · cases r with
            | nil => exact absurd rfl hr0
            | cons a as =>
                rw [List.cons_append, List.cons_append] at hqeq
                obtain ⟨rfl, hq2⟩ := List.cons.inj hqeq
                cases as with
                | nil =>
                    simp only [List.nil_append] at hq2
                    obtain ⟨-, hq3⟩ := List.cons.inj hq2
                    exact absurd hq3.symm hrne
                | cons b bs =>
                    rw [List.cons_append] at hq2
                    obtain ⟨rfl, hq3⟩ := List.cons.inj hq2
                    exfalso
                    have h' : (bs ++ pystr "/") ++ rest = [] := hq3.symm
                    obtain ⟨h1, -⟩ := List.append_eq_nil.mp h'
                    obtain ⟨-, h2⟩ := List.append_eq_nil.mp h1
                    exact absurd h2 (by decide)
    · have haq : addSep q = q ++ pystr "/" := by rw [addSep, if_neg hqe]
      rw [har, haq]
      constructor
      · intro hsw
        obtain ⟨t, ht⟩ := (startswith_iff _ _).mp hsw
        rw [show (pystr "/" : Str) = ['/'] from rfl] at ht
        rcases List.eq_nil_or_concat t with rfl | ⟨t', c, rfl⟩
        · rw [List.append_nil] at ht
          exact Or.inl (List.append_cancel_right ht)
        · rw [List.concat_eq_append] at ht
          have hc : c = '/' := by
            have h1 := congrArg List.getLast? ht
            rw [List.getLast?_concat] at h1
            rw [show r ++ ['/'] ++ (t' ++ [c]) = (r ++ ['/'] ++ t') ++ [c] by simp] at h1
            rw [List.getLast?_concat] at h1
            exact (Option.some.inj h1).symm
          subst hc
          have ht2 : q = (r ++ ['/']) ++ t' := by
            have hstep : q ++ ['/'] = ((r ++ ['/']) ++ t') ++ ['/'] := by
              rw [ht]
              simp
            exact List.append_cancel_right hstep
          rcases List.eq_nil_or_concat t' with rfl | ⟨t'', c', rfl⟩
          · rw [List.append_nil] at ht2
            subst ht2
            exact absurd (List.getLast?_concat r) hqe
          · rw [List.concat_eq_append] at ht2
            refine Or.inr ⟨t'' ++ [c'],
              List.append_ne_nil_of_right_ne_nil t'' (List.cons_ne_nil c' []), ?_⟩
            exact ht2
      · rintro (rfl | ⟨rest, hrne, hqeq⟩)
        · exact (startswith_iff _ _).mpr ⟨[], (List.append_nil _).symm⟩
        · exact (startswith_iff _ _).mpr ⟨rest ++ pystr "/", by rw [hqeq, List.append_assoc]⟩

/-- C4: `validpath` returns true exactly when the candidate path, after
normalization (which resolves "." and ".." segments), is contained under the
normalized account root — equal to it, or extending it past a separator; in
particular every path whose normalization escapes the root is rejected. -/
theorem c4_validpath_iff_contained (root path : Str) :
    PostFS.validpath root path = true ↔ containedUnder root path := by
  have h := startswith_addSep_iff (normpath root) (normpath path)
    (normpath_ne_nil root) (normpath_ne_nil path)
    (normpath_getLast_slash root) (normpath_getLast_slash path)
  simpa only [PostFS.validpath, containedUnder] using h
